import Mathlib

/-!
Shallow embedding of the affctrllib control stack (src/affctrllib) over exact
rational arithmetic, together with theorems settling the frozen claims about
the moving-average filter, the feedback controller, the joint-activation
pattern sublanguage, the state estimator and the trapezoidal PTP profile.

Python floats are modelled by `ℚ` (exact arithmetic; the spec's "up to
floating error" clauses become exact equalities), numpy 1-D arrays by
`List ℚ`, Python exceptions by `Except PyErr`.
-/

namespace Affctrllib

/-- Python exception kinds raised by the embedded code. -/
inductive PyErr where
  | typeError
  | valueError
  | zeroDivisionError
  | indexError
  deriving Repr, DecidableEq

/-! ### filter.py -/

/-- State of `Filter` (filter.py): window size `_n_points`, FIFO buffer
`_x_buffer` (deque; left end is the oldest element), running value `_y_prev`. -/
structure Filter where
  n_points : ℕ
  x_buffer : List ℚ
  y_prev : ℚ
  deriving Repr, DecidableEq

/-- `Filter.__init__` with an explicit window size: the buffer is pre-filled
with `n` zeros and `_y_prev` starts at `0.0`. -/
def Filter.init (n : ℕ) : Filter :=
  { n_points := n, x_buffer := List.replicate n 0, y_prev := 0 }

/-- `Filter.update` (filter.py lines 33-36): `append(x)`, then
`y_prev = y_prev + x - popleft()`, then return `y_prev / n_points`.
`popleft` removes the head of `x_buffer ++ [x]`.  (For `n_points = 0` Python
would raise ZeroDivisionError on the return; claims only use `n_points ≥ 1`.) -/
def Filter.update (f : Filter) (x : ℚ) : Filter × ℚ :=
  match f.x_buffer with
  | [] =>
      let y := f.y_prev + x - x
      ({ f with x_buffer := [], y_prev := y }, y / (f.n_points : ℚ))
  | x_old :: rest =>
      let y := f.y_prev + x - x_old
      ({ f with x_buffer := rest ++ [x], y_prev := y }, y / (f.n_points : ℚ))

/-- Run a sequence of `update` calls, keeping only the state. -/
def Filter.run (f : Filter) (xs : List ℚ) : Filter :=
  xs.foldl (fun g x => (g.update x).1) f

/-! ### affctrl.py — feedback schemes, scalar instantiation (`JointT = float`) -/

/-- State of `FeedbackPID` (affctrl.py): gains `kP, kD, kI`, baseline `stiff`,
and the integral accumulator `_accum_qerr`, which is an attribute that does not
exist until the first `positional_feedback` call (`none` models the missing
attribute caught by the `except AttributeError` branch). -/
structure FeedbackPID where
  kP : ℚ
  kD : ℚ
  kI : ℚ
  stiff : ℚ
  accum_qerr : Option ℚ
  deriving Repr, DecidableEq

/-- `Feedback.positional_feedback` (affctrl.py lines 64-81):
`qerr = qdes - q`; `accum_qerr = accum_qerr + qerr` (or `qerr` on the first
call, when the attribute is missing); returns the updated state together with
`kP*qerr + kD*(dqdes - dq) + kI*accum_qerr`. -/
def FeedbackPID.positional_feedback (fb : FeedbackPID) (t q dq qdes dqdes : ℚ) :
    FeedbackPID × ℚ :=
  let _ := t
  let qerr := qdes - q
  let accum :=
    match fb.accum_qerr with
    | none => qerr
    | some a => a + qerr
  ({ fb with accum_qerr := some accum },
   fb.kP * qerr + fb.kD * (dqdes - dq) + fb.kI * accum)

/-- `FeedbackPID.update` (affctrl.py lines 105-117).  The parameter order is
the one WRITTEN IN THE SOURCE: `(t, q, pa, pb, dq, qdes, dqdes)` — note that
this differs from the abstract `Feedback.update` declaration
`(t, q, dq, pa, pb, qdes, dqdes)` and from the order used at the call site in
`AffCtrl.update`.  The body ignores `pa` and `pb` (`_, _ = pa, pb`), computes
`e = positional_feedback(t, q, dq, qdes, dqdes)` and returns
`(stiff + e, stiff - e)`. -/
def FeedbackPID.update (fb : FeedbackPID) (t q pa pb dq qdes dqdes : ℚ) :
    FeedbackPID × ℚ × ℚ :=
  let _ := (pa, pb)
  let r := fb.positional_feedback t q dq qdes dqdes
  (r.1, fb.stiff + r.2, fb.stiff - r.2)

/-- State of `FeedbackPIDF` (affctrl.py): like `FeedbackPID` plus
`_press_gain`, another possibly-missing attribute (`none` models the missing
attribute caught by `except AttributeError` in `update`). -/
structure FeedbackPIDF where
  kP : ℚ
  kD : ℚ
  kI : ℚ
  stiff : ℚ
  press_gain : Option ℚ
  accum_qerr : Option ℚ
  deriving Repr, DecidableEq

/-- `positional_feedback` as inherited by `FeedbackPIDF` (same body as for
`FeedbackPID`, acting on the `FeedbackPIDF` state). -/
def FeedbackPIDF.positional_feedback (fb : FeedbackPIDF) (t q dq qdes dqdes : ℚ) :
    FeedbackPIDF × ℚ :=
  let _ := t
  let qerr := qdes - q
  let accum :=
    match fb.accum_qerr with
    | none => qerr
    | some a => a + qerr
  ({ fb with accum_qerr := some accum },
   fb.kP * qerr + fb.kD * (dqdes - dq) + fb.kI * accum)

/-- `FeedbackPIDF.update` (affctrl.py lines 139-154).  Parameter order as
WRITTEN IN THE SOURCE: `(t, q, pa, pb, dq, qdes, dqdes)`.
`d = press_gain * (pa - pb)` (or `pa - pb` when `_press_gain` is missing),
`e = positional_feedback(t, q, dq, qdes, dqdes)`, result
`(stiff + e - d, stiff - e + d)`. -/
def FeedbackPIDF.update (fb : FeedbackPIDF) (t q pa pb dq qdes dqdes : ℚ) :
    FeedbackPIDF × ℚ × ℚ :=
  let d :=
    match fb.press_gain with
    | none => pa - pb
    | some g => g * (pa - pb)
  let r := fb.positional_feedback t q dq qdes dqdes
  (r.1, fb.stiff + r.2 - d, fb.stiff - r.2 + d)

/-- `AffCtrl.scale` (affctrl.py lines 322-331), scalar case: with an input
range `(lo, hi)` configured, clip (`np.clip(u, lo, hi) = min(max(u, lo), hi)`)
and map linearly by `scale_gain = 255/(hi - lo)`; with no `_input_range`
attribute the `except AttributeError` branch returns the input unchanged. -/
def scaleVal (input_range : Option (ℚ × ℚ)) (u : ℚ) : ℚ :=
  match input_range with
  | none => u
  | some (lo, hi) => (255 / (hi - lo)) * (min (max u lo) hi - lo)

/-- Scalar `AffCtrl` state: the configured input range (with its derived
`_scale_gain`, recomputed in `scaleVal`) and the PID feedback scheme.
`mask` is the identity on scalars (the `except TypeError: pass` branch of
`AffCtrl.mask`), so it does not appear here. -/
structure AffCtrlS where
  input_range : Option (ℚ × ℚ)
  feedback_scheme : FeedbackPID
  deriving Repr, DecidableEq

/-- `AffCtrl.update` (affctrl.py lines 406-418), scalar case with the PID
scheme: `u1, u2 = feedback_scheme.update(t, q, dq, pa, pb, qdes, dqdes)`
(POSITIONAL call — the third argument `dq` lands in the callee's `pa` slot,
`pa` in `pb`, `pb` in `dq`, because `FeedbackPID.update` declares
`(t, q, pa, pb, dq, qdes, dqdes)`); then `mask` (identity on scalars) and
`scale`. -/
def AffCtrlS.update (c : AffCtrlS) (t q dq pa pb qdes dqdes : ℚ) :
    AffCtrlS × ℚ × ℚ :=
  let r := c.feedback_scheme.update t q dq pa pb qdes dqdes
  ({ c with feedback_scheme := r.1 },
   scaleVal c.input_range r.2.1, scaleVal c.input_range r.2.2)

/-! ### affposctrl.py — `AffPosCtrl.update` (claim C4)

`affposctrl.py` defines its own `Feedback`/`FeedbackPID`/`FeedbackPIDF`
classes with the same bodies as `affctrl.py` (plus a `scheme_name` string);
`AffPosCtrl._feedback_scheme` is one of the two.  We reuse the structures
above for their state. -/

/-- The feedback scheme held by an `AffPosCtrl` (one of the two classes in
`AFFPOSCTRL_ACCEPTABLE_FEEDBACK_SCHEME_NAMES`). -/
inductive PosScheme where
  | pid (fb : FeedbackPID)
  | pidf (fb : FeedbackPIDF)
  deriving Repr, DecidableEq

/-- Dynamic dispatch of `self.feedback_scheme.update(t, q, dq, pa, pb, qdes,
dqdes)` in `AffPosCtrl.update` (affposctrl.py line 247): the seven arguments
are passed POSITIONALLY to `update` methods declared as
`(t, q, pa, pb, dq, qdes, dqdes)` (affposctrl.py lines 108-120 / 143-158). -/
def PosScheme.updateCall (s : PosScheme) (t q dq pa pb qdes dqdes : ℚ) :
    PosScheme × ℚ × ℚ :=
  match s with
  | .pid fb =>
      let r := fb.update t q dq pa pb qdes dqdes
      (.pid r.1, r.2)
  | .pidf fb =>
      let r := fb.update t q dq pa pb qdes dqdes
      (.pidf r.1, r.2)

/-- The integral accumulator stored in an `AffPosCtrl`'s scheme. -/
def PosScheme.accum : PosScheme → Option ℚ
  | .pid fb => fb.accum_qerr
  | .pidf fb => fb.accum_qerr

/-- A Python call `AffCtrl.update(self, *args)` with an explicit positional
argument list.  `AffCtrl.update` (affctrl.py lines 406-418) declares seven
required positional parameters `(t, q, dq, pa, pb, qdes, dqdes)` and no
defaults, so Python raises `TypeError` before entering the body unless exactly
seven arguments are supplied. -/
def AffCtrlS.updateArgsCall (c : AffCtrlS) (args : List ℚ) :
    Except PyErr (AffCtrlS × ℚ × ℚ) :=
  match args with
  | [t, q, dq, pa, pb, qdes, dqdes] => .ok (c.update t q dq pa pb qdes dqdes)
  | _ => .error .typeError

/-- `AffPosCtrl` state: the parent `AffCtrl` state plus its own
`_feedback_scheme` (which shadows the parent's). -/
structure AffPosCtrlS where
  parent : AffCtrlS
  feedback_scheme : PosScheme
  deriving Repr, DecidableEq

/-- `AffPosCtrl.update` (affposctrl.py lines 237-248):
`u1, u2 = self.feedback_scheme.update(t, q, dq, pa, pb, qdes, dqdes)` (this
mutates the scheme's accumulator), then `return super().update(t, u1, u2)` —
a call with only THREE positional arguments, so the parent raises `TypeError`.
The mutated scheme state survives the exception, hence the state is threaded
into the result alongside the raised error. -/
def AffPosCtrlS.update (c : AffPosCtrlS) (t q dq pa pb qdes dqdes : ℚ) :
    AffPosCtrlS × Except PyErr (AffCtrlS × ℚ × ℚ) :=
  let r := c.feedback_scheme.updateCall t q dq pa pb qdes dqdes
  ({ c with feedback_scheme := r.1 },
   c.parent.updateArgsCall [t, r.2.1, r.2.2])

/-! ### affctrl.py — ndarray instantiation (`JointT = np.ndarray`), claim C3

numpy 1-D arrays are `List ℚ`; elementwise binary operations on equal-shape
arrays are `List.zipWith` (the claims' hypotheses keep all shapes equal to
`dof`, the only shapes arising in `AffCtrl.update`). -/

/-- Elementwise `+` on equal-length arrays. -/
def vAdd (a b : List ℚ) : List ℚ := List.zipWith (· + ·) a b

/-- Elementwise `-` on equal-length arrays. -/
def vSub (a b : List ℚ) : List ℚ := List.zipWith (· - ·) a b

/-- Elementwise `*` on equal-length arrays. -/
def vMul (a b : List ℚ) : List ℚ := List.zipWith (· * ·) a b

/-- `FeedbackPID` state, ndarray instantiation: gain/stiffness vectors and the
possibly-missing accumulator vector. -/
structure FeedbackPIDV where
  kP : List ℚ
  kD : List ℚ
  kI : List ℚ
  stiff : List ℚ
  accum_qerr : Option (List ℚ)
  deriving Repr, DecidableEq

/-- `Feedback.positional_feedback`, ndarray instantiation (elementwise
numpy arithmetic, cf. the NOTE comment at affctrl.py lines 79-80). -/
def FeedbackPIDV.positional_feedback (fb : FeedbackPIDV)
    (t : ℚ) (q dq qdes dqdes : List ℚ) : FeedbackPIDV × List ℚ :=
  let _ := t
  let qerr := vSub qdes q
  let accum :=
    match fb.accum_qerr with
    | none => qerr
    | some a => vAdd a qerr
  ({ fb with accum_qerr := some accum },
   vAdd (vAdd (vMul fb.kP qerr) (vMul fb.kD (vSub dqdes dq))) (vMul fb.kI accum))

/-- `FeedbackPID.update`, ndarray instantiation; parameter order as WRITTEN
IN THE SOURCE: `(t, q, pa, pb, dq, qdes, dqdes)`. -/
def FeedbackPIDV.update (fb : FeedbackPIDV)
    (t : ℚ) (q pa pb dq qdes dqdes : List ℚ) : FeedbackPIDV × List ℚ × List ℚ :=
  let _ := (pa, pb)
  let r := fb.positional_feedback t q dq qdes dqdes
  (r.1, vAdd fb.stiff r.2, vSub fb.stiff r.2)

/-- `np.put(u, indices, values)` with `mode='raise'` (the default used by
`AffCtrl.mask`): sequential in-place assignment `u[i] = w` for the pairs in
order (so a repeated index keeps the LAST value), raising `IndexError` on an
out-of-range index. -/
def npPut (u : List ℚ) : List (ℕ × ℚ) → Except PyErr (List ℚ)
  | [] => .ok u
  | (i, w) :: rest =>
      if i < u.length then npPut (u.set i w) rest else .error .indexError

/-- One row of `AffCtrl._inactive_joints`: `(joint index, pressure A,
pressure B)` (the index column is read back with `.astype(int)`). -/
abbrev InactiveRow : Type := ℕ × ℚ × ℚ

/-- `AffCtrl.mask` (affctrl.py lines 395-404), ndarray branch:
`np.put(u1, inactive[:, 0], inactive[:, 1])`;
`np.put(u2, inactive[:, 0], inactive[:, 2])`. -/
def maskV (tbl : List InactiveRow) (u1 u2 : List ℚ) :
    Except PyErr (List ℚ × List ℚ) := do
  let m1 ← npPut u1 (tbl.map fun r => (r.1, r.2.1))
  let m2 ← npPut u2 (tbl.map fun r => (r.1, r.2.2))
  return (m1, m2)

/-- `AffCtrl.scale`, ndarray case: `np.clip` and the affine map act
elementwise. -/
def scaleV (input_range : Option (ℚ × ℚ)) (u : List ℚ) : List ℚ :=
  u.map (scaleVal input_range)

/-- `AffCtrl` state, ndarray instantiation with the PID scheme configured. -/
structure AffCtrlV where
  input_range : Option (ℚ × ℚ)
  inactive_joints : List InactiveRow
  feedback_scheme : FeedbackPIDV
  deriving Repr, DecidableEq

/-- `AffCtrl.update` (affctrl.py lines 406-418), ndarray instantiation:
`u1, u2 = feedback_scheme.update(t, q, dq, pa, pb, qdes, dqdes)` (positional
call into the source's `(t, q, pa, pb, dq, qdes, dqdes)` parameter list),
then `mask`, then `scale`. -/
def AffCtrlV.update (c : AffCtrlV) (t : ℚ) (q dq pa pb qdes dqdes : List ℚ) :
    Except PyErr (AffCtrlV × List ℚ × List ℚ) := do
  let r := c.feedback_scheme.update t q dq pa pb qdes dqdes
  let m ← maskV c.inactive_joints r.2.1 r.2.2
  return ({ c with feedback_scheme := r.1 },
          scaleV c.input_range m.1, scaleV c.input_range m.2)

/-- The pressure pair the table stores for joint `i` under `np.put`
semantics: the LAST row whose index column equals `i` wins. -/
def tablePressures (tbl : List InactiveRow) (i : ℕ) : Option (ℚ × ℚ) :=
  (tbl.reverse.find? (fun r => r.1 == i)).map (fun r => r.2)

/-! ### affctrl.py — joint-activation pattern sublanguage (claims C5, C10)

Python strings are modelled as `List Char`. -/

/-- Python `str.split(sep)` for a one-character separator: splits at EVERY
occurrence, keeping empty tokens (`"".split("-") == [""]`,
`"-".split("-") == ["", ""]`). -/
def splitOnChar (sep : Char) : List Char → List (List Char)
  | [] => [[]]
  | c :: rest =>
      if c = sep then [] :: splitOnChar sep rest
      else
        match splitOnChar sep rest with
        | [] => [[c]]
        | t :: ts => (c :: t) :: ts

/-- Decimal digit accumulation for `pyInt`. -/
def parseDigits (acc : ℕ) : List Char → Option ℕ
  | [] => some acc
  | c :: rest =>
      if c.isDigit then parseDigits (acc * 10 + (c.toNat - '0'.toNat)) rest
      else none

/-- The Python builtin `int(str)` as used by `_expand_as_index` /
`_expand_as_index_range`: an optional sign followed by at least one decimal
digit; anything else (including the empty string) raises `ValueError`.
(Leading/trailing whitespace, which Python would strip, never occurs in the
patterns of the claims.) -/
def pyInt (s : List Char) : Except PyErr ℤ :=
  match s with
  | '+' :: rest =>
      match rest with
      | [] => .error .valueError
      | _ =>
          match parseDigits 0 rest with
          | some n => .ok (n : ℤ)
          | none => .error .valueError
  | '-' :: rest =>
      match rest with
      | [] => .error .valueError
      | _ =>
          match parseDigits 0 rest with
          | some n => .ok (-(n : ℤ))
          | none => .error .valueError
  | [] => .error .valueError
  | _ =>
      match parseDigits 0 s with
      | some n => .ok (n : ℤ)
      | none => .error .valueError

/-- Python `range(beg, end)` over integers, as a list. -/
def intRange (beg e : ℤ) : List ℤ :=
  (List.range (e - beg).toNat).map (fun k : ℕ => beg + (k : ℤ))

/-- `AffCtrl._expand_as_index_range` (affctrl.py lines 337-350):
`_range = pattern.split("-")`; when it has more than one component,
`beg = int(_range[0])` (`0` on `ValueError`), `end = int(_range[1]) + 1`
(`self.dof` on `ValueError`), and the result is `range(beg, end)`; otherwise
the empty list. -/
def expand_as_index_range (dof : ℕ) (pattern : List Char) : List ℤ :=
  match splitOnChar '-' pattern with
  | r0 :: r1 :: _ =>
      let beg : ℤ :=
        match pyInt r0 with
        | .ok n => n
        | .error _ => 0
      let e : ℤ :=
        match pyInt r1 with
        | .ok n => n + 1
        | .error _ => (dof : ℤ)
      intRange beg e
  | _ => []

/-- The body of the `for p in pattern.split(",")` loop of
`AffCtrl._expand_as_index`, over the already-split token list: a token
containing `"-"` contributes `_expand_as_index_range(p)`; any other token
contributes `[int(p)]`, and the `int` call may raise `ValueError`, aborting
the whole loop. -/
def expandTokens (dof : ℕ) : List (List Char) → Except PyErr (List ℤ)
  | [] => .ok []
  | p :: rest =>
      if '-' ∈ p then
        match expandTokens dof rest with
        | .ok tail => .ok (expand_as_index_range dof p ++ tail)
        | .error err => .error err
      else
        match pyInt p with
        | .error err => .error err
        | .ok n =>
            match expandTokens dof rest with
            | .ok tail => .ok (n :: tail)
            | .error err => .error err

/-- `AffCtrl._expand_as_index` (affctrl.py lines 352-359): split the pattern
on `","` and expand each token. -/
def expand_as_index (dof : ℕ) (pattern : List Char) : Except PyErr (List ℤ) :=
  expandTokens dof (splitOnChar ',' pattern)

/-! ### ptp.py — `TrapezoidalVelocityProfile` (claim C7), scalar case -/

/-- The derived fields computed by `set_vmax` / `set_tb`:
`(_vmax, _tb, _vM, _a)`. -/
structure TrapDerived where
  vmax : ℚ
  tb : ℚ
  vM : ℚ
  a : ℚ
  deriving Repr, DecidableEq

/-- `TrapezoidalVelocityProfile.set_vmax` (ptp.py lines 136-172), scalar
case: `vM = |vmax / (qF - q0)|` (Python raises `ZeroDivisionError` when
`qF == q0`); `vM` below `1e-12` is replaced by `3/(2T)`; raises `ValueError`
when `vM ≤ 1/T`; truncates `vM` to `2/T` (with a warning) when it exceeds it;
then `_vmax = vM*(qF - q0)`, `_tb = T - 1/vM`, `_a = vM/tb`. -/
def set_vmax (q0 qF T : ℚ) (vmax : ℚ) : Except PyErr TrapDerived :=
  if qF - q0 = 0 then .error .zeroDivisionError
  else
    let vM0 := |vmax / (qF - q0)|
    let vM1 := if vM0 < 1 / 10 ^ 12 then 3 / (2 * T) else vM0
    if vM1 ≤ 1 / T then .error .valueError
    else
      let vM2 := if 2 / T < vM1 then 2 / T else vM1
      let tb := T - 1 / vM2
      .ok { vmax := vM2 * (qF - q0), tb := tb, vM := vM2, a := vM2 / tb }

/-- `TrapezoidalVelocityProfile.set_tb` (ptp.py lines 178-202), scalar case:
`tb` below `1e-12` is replaced by `T/3`; `tb` above `T/2` is reduced to `T/2`
(with a warning); then `_vM = 1/(T - tb)`, `_vmax = vM*(qF - q0)`,
`_a = vM/tb`.  No error is raised. -/
def set_tb (q0 qF T : ℚ) (tb0 : ℚ) : TrapDerived :=
  let tb1 := if tb0 < 1 / 10 ^ 12 then T / 3 else tb0
  let tb2 := if (1 / 2 : ℚ) * T < tb1 then (1 / 2 : ℚ) * T else tb1
  let vM := 1 / (T - tb2)
  { vmax := vM * (qF - q0), tb := tb2, vM := vM, a := vM / tb2 }

/-- `TrapezoidalVelocityProfile.__init__` (ptp.py lines 109-130), scalar
case: `set_vmax(vmax)` when `vmax` is given, else `set_tb(tb)` when `tb` is
given, ELSE `set_vmax(0)` — the neither-given case does NOT raise by itself.
(The `_zeros`/`_ones` bookkeeping fields are irrelevant here and omitted.) -/
def TrapezoidalVelocityProfile.init (q0 qF T t0 : ℚ)
    (vmax? tb? : Option ℚ) : Except PyErr TrapDerived :=
  let _ := t0
  match vmax? with
  | some v => set_vmax q0 qF T v
  | none =>
      match tb? with
      | some tb0 => .ok (set_tb q0 qF T tb0)
      | none => set_vmax q0 qF T 0

/-! ### affcomm.py / affstate.py — raw-frame de-interleave and `AffState.update`
(claim C6)

`AffState.update` mixes scalars and arrays through numpy broadcasting (the
fresh filters hold Python-float zeros, the channels are ndarrays), so values
here are `NV`: a numpy scalar or a 1-D array.  Binary operations broadcast a
scalar over an array and raise `ValueError` on a length mismatch. -/

/-- A numpy value: scalar or 1-D array. -/
inductive NV where
  | s (x : ℚ)
  | v (xs : List ℚ)
  deriving Repr, DecidableEq

/-- Broadcasting binary operation on numpy values. -/
def nvBin (f : ℚ → ℚ → ℚ) : NV → NV → Except PyErr NV
  | .s a, .s b => .ok (.s (f a b))
  | .s a, .v bs => .ok (.v (bs.map (fun b => f a b)))
  | .v as_, .s b => .ok (.v (as_.map (fun a => f a b)))
  | .v as_, .v bs =>
      if as_.length = bs.length then .ok (.v (List.zipWith f as_ bs))
      else .error .valueError

/-- Division of a numpy value by a scalar. -/
def nvDivScalar (x : NV) (c : ℚ) : NV :=
  match x with
  | .s a => .s (a / c)
  | .v as_ => .v (as_.map (fun a => a / c))

/-- `np.zeros(x.shape)`. -/
def nvZerosLike (x : NV) : NV :=
  match x with
  | .s _ => .s 0
  | .v as_ => .v (List.replicate as_.length 0)

/-- `Filter` state over numpy values (the estimator feeds whole channel
arrays through scalar-initialised filters). -/
structure FilterNV where
  n_points : ℕ
  x_buffer : List NV
  y_prev : NV
  deriving Repr, DecidableEq

/-- `Filter()` with the default window (`_n_points = 5`): buffer of five
Python-float zeros. -/
def FilterNV.default : FilterNV :=
  { n_points := 5, x_buffer := List.replicate 5 (.s 0), y_prev := .s 0 }

/-- `Filter.update` over numpy values (broadcasting may raise). -/
def FilterNV.update (f : FilterNV) (x : NV) : Except PyErr (FilterNV × NV) :=
  match f.x_buffer with
  | [] => do
      let t ← nvBin (· + ·) f.y_prev x
      let y ← nvBin (· - ·) t x
      return ({ f with x_buffer := [], y_prev := y }, nvDivScalar y f.n_points)
  | x_old :: rest => do
      let t ← nvBin (· + ·) f.y_prev x
      let y ← nvBin (· - ·) t x_old
      return ({ f with x_buffer := rest ++ [x], y_prev := y },
              nvDivScalar y f.n_points)

/-- `nrow` chunks of `ncol` consecutive elements: `np.reshape((nrow, ncol))`
after the size check has passed. -/
def chunkRows (ncol : ℕ) : ℕ → List ℚ → List (List ℚ)
  | 0, _ => []
  | n + 1, l => l.take ncol :: chunkRows ncol n (l.drop ncol)

/-- The transpose `.T` of an `(nrow, ncol)` array, as its `ncol` rows
(each of length `nrow`); iteration over a 2-D numpy array yields its rows. -/
def transposeRows (ncol : ℕ) (rows : List (List ℚ)) : List (List ℚ) :=
  (List.range ncol).map (fun j => rows.filterMap (fun row => row.get? j))

/-- `unzip_array_as_ndarray` (affcomm.py lines 55-59):
`np.array(array).reshape((int(len(array)/ncol), ncol))` raises `ValueError`
unless `len(array) == (len(array)//ncol) * ncol`; the result is returned
transposed. -/
def unzip_array_as_ndarray (a : List ℚ) (ncol : ℕ) :
    Except PyErr (List (List ℚ)) :=
  let nrow := a.length / ncol
  if a.length = nrow * ncol then
    .ok (transposeRows ncol (chunkRows ncol nrow a))
  else .error .valueError

/-- The list comprehension
`[f.update(d) for f, d in zip(self._filter_list, self._data_ndarray)]`
(affstate.py lines 102-105), threading the mutated filters. -/
def updateFilters : List (FilterNV × List ℚ) →
    Except PyErr (List FilterNV × List NV)
  | [] => .ok ([], [])
  | (f, d) :: rest => do
      let r ← f.update (.v d)
      let t ← updateFilters rest
      return (r.1 :: t.1, r.2 :: t.2)

/-- `AffState` state (affstate.py): sensor dof from the config `chain`
section (NOT consulted by `update`), timing `dt`, the three per-channel
filters, and the previous filtered angle `_q_prev` — an attribute missing
until the first `update` (the `except AttributeError` branch). -/
structure AffStateS where
  dof : ℕ
  dt : ℚ
  filter_list : List FilterNV
  q_prev : Option NV
  deriving Repr, DecidableEq

/-- A freshly constructed `AffState`: three default filters, no `_q_prev`. -/
def AffStateS.fresh (dof : ℕ) (dt : ℚ) : AffStateS :=
  { dof := dof, dt := dt,
    filter_list := [FilterNV.default, FilterNV.default, FilterNV.default],
    q_prev := none }

/-- `AffState.update` (affstate.py lines 98-112): de-interleave the raw frame
with `unzip_array_as_ndarray(raw, ncol=3)`, filter each channel, read
`q = _filtered_data[0]` (IndexError if empty), compute
`dq = (q - q_prev)/dt` (or `np.zeros(q.shape)` when `_q_prev` is missing),
store `q_prev = q`.  Returns the new state. -/
def AffStateS.update (st : AffStateS) (raw : List ℚ) :
    Except PyErr AffStateS := do
  let data ← unzip_array_as_ndarray raw 3
  let r ← updateFilters (st.filter_list.zip data)
  match r.2 with
  | [] => .error .indexError
  | q :: _ => do
      let _dq ←
        match st.q_prev with
        | none => .ok (nvZerosLike q)
        | some qp => do
            let d ← nvBin (· - ·) q qp
            .ok (nvDivScalar d st.dt)
      return { st with filter_list := r.1, q_prev := some q }

/-- The PID command pair and error signal as WRITTEN IN THE SPEC (for
comparison with the code in claims C1/C2):
`e = kP*(qdes-q) + kD*(dqdes-dq) + kI*accum_qerr` with
`accum_qerr += (qdes-q)`, command pair `(stiff + e, stiff - e)`; the chamber
pressures do not appear. -/
def specPIDCommand (kP kD kI stiff accum0 q dq qdes dqdes : ℚ) : ℚ × ℚ :=
  let accum := accum0 + (qdes - q)
  let e := kP * (qdes - q) + kD * (dqdes - dq) + kI * accum
  (stiff + e, stiff - e)

/-- The PIDF command pair as WRITTEN IN THE SPEC (for comparison with the
code in claim C2): `d = press_gain * (pa - pb)`, command pair
`(stiff + e - d, stiff - e + d)` with `e` as in `specPIDCommand`. -/
def specPIDFCommand (kP kD kI stiff pgain accum0 q dq pa pb qdes dqdes : ℚ) :
    ℚ × ℚ :=
  let accum := accum0 + (qdes - q)
  let e := kP * (qdes - q) + kD * (dqdes - dq) + kI * accum
  let d := pgain * (pa - pb)
  (stiff + e - d, stiff - e + d)

/-! ## Theorems -/

/-! ### Filter lemmas -/

theorem Filter.update_n_points (f : Filter) (x : ℚ) :
    ((f.update x).1).n_points = f.n_points := by
  unfold Filter.update
  cases f.x_buffer <;> rfl

theorem Filter.update_snd (f : Filter) (x : ℚ) :
    (f.update x).2 = ((f.update x).1).y_prev / (f.n_points : ℚ) := by
  unfold Filter.update
  cases f.x_buffer <;> rfl

theorem Filter.run_n_points (f : Filter) (xs : List ℚ) :
    (f.run xs).n_points = f.n_points := by
  induction xs generalizing f with
  | nil => rfl
  | cons x xs ih =>
      show ((f.update x).1.run xs).n_points = f.n_points
      rw [ih, Filter.update_n_points]

theorem Filter.sum_update (f : Filter) (x : ℚ)
    (h : f.x_buffer.sum = f.y_prev) :
    ((f.update x).1).x_buffer.sum = ((f.update x).1).y_prev := by
  unfold Filter.update
  cases hb : f.x_buffer with
  | nil =>
      simp only [hb, List.sum_nil] at h
      simp [← h]
  | cons a rest =>
      rw [hb] at h
      simp only [List.sum_cons] at h
      simp only [List.sum_append, List.sum_cons, List.sum_nil]
      linarith

theorem Filter.run_sum (f : Filter) (xs : List ℚ)
    (h : f.x_buffer.sum = f.y_prev) :
    ((f.run xs).x_buffer).sum = (f.run xs).y_prev := by
  induction xs generalizing f with
  | nil => exact h
  | cons x xs ih =>
      exact ih _ (Filter.sum_update f x h)

/-- Claim C8 (amended): for every window size `N` and every sequence of
`update` calls starting from a freshly constructed filter, the state
satisfies `sum(buffer) == y_prev` (the running value IS the buffer sum, not
`N` times it), and `update(x)` returns the new `y_prev / N`. -/
theorem C8_filter_invariant_amended (n : ℕ) (xs : List ℚ) :
    (((Filter.init n).run xs).x_buffer).sum = ((Filter.init n).run xs).y_prev
    ∧ ∀ x : ℚ, (((Filter.init n).run xs).update x).2
        = ((((Filter.init n).run xs).update x).1).y_prev / (n : ℚ) := by
  constructor
  · exact Filter.run_sum _ _ (by simp [Filter.init])
  · intro x
    rw [Filter.update_snd, Filter.run_n_points]
    rfl

/-- Claim C8, counterexample to the claim as stated: for `N = 2`, after a
single `update(1)` on a fresh filter, `sum(buffer) = 1` but
`y_prev * N = 2` — the stated invariant `sum(buffer) == y_prev * N` fails
(arithmetic here is exact, so "up to floating error" cannot rescue it). -/
theorem C8_counterexample :
    ¬ ((((Filter.init 2).update 1).1).x_buffer.sum
        = (((Filter.init 2).update 1).1).y_prev * 2) := by
  norm_num [Filter.init, Filter.update, List.replicate]

/-- State of a fresh `N`-point filter after `k ≤ N` constant updates. -/
theorem Filter.run_replicate_le (n k : ℕ) (x : ℚ) (hk : k ≤ n) :
    (Filter.init n).run (List.replicate k x)
      = { n_points := n,
          x_buffer := List.replicate (n - k) 0 ++ List.replicate k x,
          y_prev := (k : ℚ) * x } := by
  induction k with
  | zero => simp [Filter.run, Filter.init]
  | succ k ih =>
      have hk1 : k ≤ n := Nat.le_of_succ_le hk
      have hrun : (Filter.init n).run (List.replicate (k + 1) x)
          = (((Filter.init n).run (List.replicate k x)).update x).1 := by
        rw [List.replicate_succ']
        unfold Filter.run
        rw [List.foldl_append]
        rfl
      rw [hrun, ih hk1]
      have hnk : n - k = (n - (k + 1)) + 1 := by omega
      rw [hnk, List.replicate_succ]
      unfold Filter.update
      simp only [List.cons_append]
      have : (List.replicate (n - (k + 1)) (0:ℚ) ++ List.replicate k x) ++ [x]
          = List.replicate (n - (k + 1)) (0:ℚ) ++ List.replicate (k + 1) x := by
        rw [List.append_assoc, ← List.replicate_succ' k x]
      simp only [this]
      congr 1
      push_cast
      ring

/-- State of a fresh `N`-point filter after `N + j` constant updates: the
buffer is full of `x` and stays so. -/
theorem Filter.run_replicate_ge (n j : ℕ) (x : ℚ) (hn : 1 ≤ n) :
    (Filter.init n).run (List.replicate (n + j) x)
      = { n_points := n,
          x_buffer := List.replicate n x,
          y_prev := (n : ℚ) * x } := by
  induction j with
  | zero =>
      have := Filter.run_replicate_le n n x (le_refl n)
      simpa using this
  | succ j ih =>
      have hrun : (Filter.init n).run (List.replicate (n + (j + 1)) x)
          = (((Filter.init n).run (List.replicate (n + j) x)).update x).1 := by
        have : n + (j + 1) = (n + j) + 1 := by omega
        rw [this, List.replicate_succ']
        unfold Filter.run
        rw [List.foldl_append]
        rfl
      rw [hrun, ih]
      have hn' : n = (n - 1) + 1 := by omega
      rw [hn', List.replicate_succ]
      unfold Filter.update
      simp only [← List.replicate_succ' (n - 1) x]
      congr 1
      ring

/-- `Filter.update` on a state whose buffer is presented as a cons. -/
theorem Filter.update_cons (n : ℕ) (a : ℚ) (rest : List ℚ) (y x : ℚ) :
    Filter.update ⟨n, a :: rest, y⟩ x
      = (⟨n, rest ++ [x], y + x - a⟩, (y + x - a) / (n : ℚ)) := rfl

/-- Claim C9: a fresh `N`-point filter fed the constant `x` returns
`x * (k/N)` on the `k`-th `update` call for `k ≤ N` (the zero-prefilled
buffer causes this transient) and exactly `x` on every call once the buffer
is full (`k ≥ N`). -/
theorem C9_filter_constant_feed (n k : ℕ) (x : ℚ) (hn : 1 ≤ n) (hk : 1 ≤ k) :
    (k ≤ n →
      (((Filter.init n).run (List.replicate (k - 1) x)).update x).2
        = x * (k : ℚ) / (n : ℚ))
    ∧ (n ≤ k →
      (((Filter.init n).run (List.replicate (k - 1) x)).update x).2 = x) := by
  have hcast : ((k - 1 : ℕ) : ℚ) = (k : ℚ) - 1 := by
    rw [Nat.cast_sub hk, Nat.cast_one]
  constructor
  · intro hkn
    rw [Filter.run_replicate_le n (k - 1) x (by omega)]
    have h1 : n - (k - 1) = (n - k) + 1 := by omega
    rw [h1, List.replicate_succ]
    rw [List.cons_append, Filter.update_cons]
    rw [hcast]
    ring_nf
  · intro hnk
    rcases Nat.lt_or_ge (k - 1) n with hlt | hge
    · -- k = n exactly: this is the N-th call
      have hkn : k = n := by omega
      rw [Filter.run_replicate_le n (k - 1) x (by omega)]
      have h1 : n - (k - 1) = 1 := by omega
      rw [h1, List.replicate_succ, List.replicate_zero]
      rw [List.cons_append, Filter.update_cons]
      rw [hcast]
      have hn0 : (n : ℚ) ≠ 0 := by
        have : n ≠ 0 := by omega
        exact_mod_cast this
      rw [← hkn]
      field_simp
      ring
    · -- buffer already full before this call
      have hj : k - 1 = n + (k - 1 - n) := by omega
      rw [hj, Filter.run_replicate_ge n (k - 1 - n) x hn]
      have hn' : n = (n - 1) + 1 := by omega
      rw [hn', List.replicate_succ]
      rw [Filter.update_cons]
      have hne : (((n - 1) + 1 : ℕ) : ℚ) ≠ 0 := by
        exact_mod_cast Nat.succ_ne_zero (n - 1)
      field_simp

/-- Witness for C9 at `N = 2`, `x = 3`, `k = 1`. -/
theorem C9_witness :
    (((Filter.init 2).run (List.replicate (1 - 1) (3:ℚ))).update 3).2
      = 3 * ((1:ℕ) : ℚ) / ((2:ℕ) : ℚ) :=
  (C9_filter_constant_feed 2 1 3 (by decide) (by decide)).1 (by decide)

/-! ### Claims C1/C2: the feedback-scheme argument swap -/

/-- Claim C1 is falsified by the code: `AffCtrl.update` passes
`(t, q, dq, pa, pb, qdes, dqdes)` positionally into `FeedbackPID.update`,
whose parameter list reads `(t, q, pa, pb, dq, qdes, dqdes)`, so the caller's
chamber pressure `pb` lands in the `dq` slot of the kD term and the caller's
`dq` is ignored.  With `kP = kI = 0`, `kD = 1`, `stiff = 0`, no input range,
at `t=0, q=0, dq=5, pa=0, pb=1, qdes=0, dqdes=0` the code produces
`(-1, 1)` while the spec's PID law produces `(-5, 5)`; changing only `pb`
to `2` changes the code's output to `(-2, 2)`, so `pb` does affect the
result. -/
theorem C1_pid_swap_code_bug :
    ((AffCtrlS.update ⟨none, ⟨0, 1, 0, 0, none⟩⟩ 0 0 5 0 1 0 0).2 = (-1, 1))
    ∧ (specPIDCommand 0 1 0 0 0 0 5 0 0 = (-5, 5))
    ∧ ((AffCtrlS.update ⟨none, ⟨0, 1, 0, 0, none⟩⟩ 0 0 5 0 2 0 0).2
        = (-2, 2)) := by
  refine ⟨?_, ?_, ?_⟩ <;>
    norm_num [AffCtrlS.update, FeedbackPID.update,
      FeedbackPID.positional_feedback, scaleVal, specPIDCommand]

/-- Claim C2 is falsified by the code: through the same positional swap,
`FeedbackPIDF.update` computes `d = press_gain * (dq - pa)` in the CALLER's
variables (and its kD term uses the caller's `pb`), not
`press_gain * (pa - pb)`.  With all gains zero, `stiff = 0`,
`press_gain = 1`, at `t=0, q=0, dq=1, pa=0, pb=0, qdes=0, dqdes=0` the code
produces `(-1, 1)` while the spec's PIDF law gives `d = 0` and `(0, 0)`; the
same divergence occurs in the `press_gain`-unset branch. -/
theorem C2_pidf_swap_code_bug :
    ((FeedbackPIDF.update ⟨0, 0, 0, 0, some 1, none⟩ 0 0 1 0 0 0 0).2
        = (-1, 1))
    ∧ (specPIDFCommand 0 0 0 0 1 0 0 1 0 0 0 0 = (0, 0))
    ∧ ((FeedbackPIDF.update ⟨0, 0, 0, 0, none, none⟩ 0 0 1 0 0 0 0).2
        = (-1, 1)) := by
  refine ⟨?_, ?_, ?_⟩ <;>
    norm_num [FeedbackPIDF.update, FeedbackPIDF.positional_feedback,
      specPIDFCommand]

/-! ### Claim C4: `AffPosCtrl.update` always raises `TypeError` -/

/-- Claim C4: every call of `AffPosCtrl.update` ends in the parent
`AffCtrl.update` being invoked with only three of its seven required
positional arguments, hence raises `TypeError` and never returns a command
pair; and by that point the configured scheme's integral accumulator has
already been advanced to `accum_qerr + (qdes - q)` (with the missing
attribute read as `0` on the first call), so the failed call leaves the
controller state mutated. -/
theorem C4_affposctrl_update_typeerror
    (c : AffPosCtrlS) (t q dq pa pb qdes dqdes : ℚ) :
    ((c.update t q dq pa pb qdes dqdes).2
        = Except.error PyErr.typeError)
    ∧ ((c.update t q dq pa pb qdes dqdes).1.feedback_scheme.accum
        = some (c.feedback_scheme.accum.getD 0 + (qdes - q))) := by
  cases hc : c.feedback_scheme with
  | pid fb =>
      cases ha : fb.accum_qerr <;>
        simp [AffPosCtrlS.update, PosScheme.updateCall, PosScheme.accum,
          FeedbackPID.update, FeedbackPID.positional_feedback,
          AffCtrlS.updateArgsCall, hc, ha]
  | pidf fb =>
      cases ha : fb.accum_qerr <;>
        simp [AffPosCtrlS.update, PosScheme.updateCall, PosScheme.accum,
          FeedbackPIDF.update, FeedbackPIDF.positional_feedback,
          AffCtrlS.updateArgsCall, hc, ha]

/-! ### Claim C7: trapezoidal profile with neither `vmax` nor `tb` -/

/-- Counterexample to claim C7 as stated: constructing a
`TrapezoidalVelocityProfile(q0=0, qF=1, T=6, t0=0)` with NEITHER `vmax` nor
`tb` does not fail at all — the `else` branch calls `set_vmax(0)`, the
near-zero `vM` is replaced by `3/(2T) = 1/4`, and construction succeeds with
`tb = 2`. -/
theorem C7_counterexample :
    TrapezoidalVelocityProfile.init 0 1 6 0 none none
      = Except.ok { vmax := 1/4, tb := 2, vM := 1/4, a := 1/8 } := by
  norm_num [TrapezoidalVelocityProfile.init, set_vmax]

/-- Claim C7 (amended): constructing a trapezoidal-velocity profile with
neither `vmax` nor `tb` given does NOT raise; it behaves as `set_vmax(0)`,
whose near-zero guard substitutes the default `vM = 3/(2T)`, so construction
succeeds with blend time `tb = T/3` (for any `qF ≠ q0` and `T > 0`). -/
theorem C7_default_vmax_amended (q0 qF T t0 : ℚ)
    (hq : qF ≠ q0) (hT : 0 < T) :
    ∃ d, TrapezoidalVelocityProfile.init q0 qF T t0 none none = Except.ok d
      ∧ d.tb = T / 3 := by
  have hsub : qF - q0 ≠ 0 := sub_ne_zero.mpr hq
  have h2T : (0:ℚ) < 2 * T := by linarith
  have hlt : 1 / T < 3 / (2 * T) := by
    rw [div_lt_div_iff₀ hT h2T]
    linarith
  have hle : 3 / (2 * T) ≤ 2 / T := by
    rw [div_le_div_iff₀ h2T hT]
    linarith
  have hz : |(0:ℚ) / (qF - q0)| = 0 := by simp
  have hsmall : |(0:ℚ) / (qF - q0)| < 1 / 10 ^ 12 := by
    rw [hz]; norm_num
  refine ⟨{ vmax := (3 / (2 * T)) * (qF - q0), tb := T - 1 / (3 / (2 * T)),
            vM := 3 / (2 * T),
            a := (3 / (2 * T)) / (T - 1 / (3 / (2 * T))) }, ?_, ?_⟩
  · simp only [TrapezoidalVelocityProfile.init, set_vmax, if_neg hsub,
      if_pos hsmall, if_neg (not_le.mpr hlt), if_neg (not_lt.mpr hle)]
  · have hT3 : (1:ℚ) / (3 / (2 * T)) = 2 * T / 3 := one_div_div _ _
    simp only [hT3]
    ring

/-- Witness for the amended C7 at `(q0, qF, T, t0) = (0, 1, 6, 0)`. -/
theorem C7_amended_witness :
    ∃ d, TrapezoidalVelocityProfile.init 0 1 6 0 none none = Except.ok d
      ∧ d.tb = 6 / 3 :=
  C7_default_vmax_amended 0 1 6 0 (by norm_num) (by norm_num)

/-! ### Claims C5/C10: the joint-activation pattern sublanguage -/

theorem splitOnChar_ne_nil (sep : Char) (l : List Char) :
    splitOnChar sep l ≠ [] := by
  cases l with
  | nil => simp [splitOnChar]
  | cons c rest =>
      unfold splitOnChar
      by_cases hc : c = sep
      · simp [hc]
      · simp only [if_neg hc]
        cases splitOnChar sep rest <;> simp

theorem splitOnChar_cons (sep c : Char) (rest : List Char) :
    splitOnChar sep (c :: rest)
      = if c = sep then [] :: splitOnChar sep rest
        else
          match splitOnChar sep rest with
          | [] => [[c]]
          | t :: ts => (c :: t) :: ts := rfl

theorem splitOnChar_append (sep : Char) (xs ys : List Char) :
    splitOnChar sep (xs ++ sep :: ys)
      = splitOnChar sep xs ++ splitOnChar sep ys := by
  induction xs with
  | nil => simp [splitOnChar]
  | cons c xs ih =>
      rw [List.cons_append, splitOnChar_cons, splitOnChar_cons, ih]
      by_cases hc : c = sep
      · rw [if_pos hc, if_pos hc]
        rfl
      · rw [if_neg hc, if_neg hc]
        cases h : splitOnChar sep xs with
        | nil => exact absurd h (splitOnChar_ne_nil sep xs)
        | cons t ts => simp

theorem splitOnChar_of_not_mem (sep : Char) (xs : List Char) (h : sep ∉ xs) :
    splitOnChar sep xs = [xs] := by
  induction xs with
  | nil => rfl
  | cons c rest ih =>
      have hc : c ≠ sep := fun hceq => h (hceq ▸ List.mem_cons_self c rest)
      have hrest : sep ∉ rest := fun hm => h (List.mem_cons_of_mem c hm)
      simp only [splitOnChar, if_neg (Ne.symm hc ∘ Eq.symm), ih hrest]

theorem expandTokens_cons (dof : ℕ) (p : List Char) (rest : List (List Char)) :
    expandTokens dof (p :: rest)
      = if '-' ∈ p then
          match expandTokens dof rest with
          | .ok tail => .ok (expand_as_index_range dof p ++ tail)
          | .error err => .error err
        else
          match pyInt p with
          | .error err => .error err
          | .ok n =>
              match expandTokens dof rest with
              | .ok tail => .ok (n :: tail)
              | .error err => .error err := rfl

theorem expandTokens_append (dof : ℕ) (ts1 ts2 : List (List Char)) :
    expandTokens dof (ts1 ++ ts2)
      = match expandTokens dof ts1 with
        | .ok l1 =>
            (match expandTokens dof ts2 with
             | .ok l2 => .ok (l1 ++ l2)
             | .error e => .error e)
        | .error e => .error e := by
  induction ts1 with
  | nil =>
      rw [List.nil_append]
      show expandTokens dof ts2
        = match Except.ok ([] : List ℤ) with
          | .ok l1 =>
              (match expandTokens dof ts2 with
               | .ok l2 => .ok (l1 ++ l2)
               | .error e => .error e)
          | .error e => .error e
      cases expandTokens dof ts2 with
      | ok l2 => simp
      | error e => rfl
  | cons p ts1 ih =>
      rw [List.cons_append, expandTokens_cons, expandTokens_cons, ih]
      by_cases hp : '-' ∈ p
      · rw [if_pos hp, if_pos hp]
        cases expandTokens dof ts1 with
        | ok l1 =>
            cases expandTokens dof ts2 with
            | ok l2 => simp [List.append_assoc]
            | error e => rfl
        | error e => rfl
      · rw [if_neg hp, if_neg hp]
        cases pyInt p with
        | ok n =>
            cases expandTokens dof ts1 with
            | ok l1 =>
                cases expandTokens dof ts2 with
                | ok l2 => rfl
                | error e => rfl
            | error e => rfl
        | error e => rfl

/-- Claim C5 is falsified by the code: a non-range token that `int()` cannot
parse is NOT silently skipped — `_expand_as_index` lets the `ValueError`
escape.  The pattern `"a"`, the empty pattern, and the pattern `"1,a"` (whose
first token is perfectly valid) all raise; the accompanying tests
(`test_set_inactive_joints_do_nothing`) expect them to resolve to no indices
instead. -/
theorem C5_unparseable_token_raises :
    (expand_as_index 13 (String.toList "a") = Except.error PyErr.valueError)
    ∧ (expand_as_index 13 [] = Except.error PyErr.valueError)
    ∧ (expand_as_index 13 (String.toList "1,a")
        = Except.error PyErr.valueError) := by
  exact ⟨rfl, rfl, rfl⟩

theorem pyInt_nil : pyInt [] = Except.error PyErr.valueError := rfl

/-- Membership in Python's `range(beg, e)`: exactly the integers `j` with
`beg ≤ j < e` (this justifies reading `intRange` results as index sets). -/
theorem mem_intRange (beg e j : ℤ) :
    j ∈ intRange beg e ↔ beg ≤ j ∧ j < e := by
  unfold intRange
  constructor
  · intro h
    obtain ⟨k, hk, hkj⟩ := List.mem_map.mp h
    rw [List.mem_range] at hk
    have hk' : (k : ℤ) < e - beg := Int.lt_toNat.mp hk
    omega
  · intro h
    refine List.mem_map.mpr ⟨(j - beg).toNat, List.mem_range.mpr ?_, ?_⟩
    · have : ((j - beg).toNat : ℤ) = j - beg := Int.toNat_of_nonneg (by omega)
      omega
    · have : ((j - beg).toNat : ℤ) = j - beg := Int.toNat_of_nonneg (by omega)
      omega

/-- Claim C10: the joint-activation pattern sublanguage.
(1) `"1-3"` on a 13-joint system resolves to `[1, 2, 3]`;
(2) an open-ended `"a-"` (numeric token `sa` parsing to `a`) resolves to
`range(a, dof)`, i.e. `{a..dof-1}`;
(3) `"-b"` resolves to `range(0, b+1)`, i.e. `{0..b}`;
(4) a bare `"-"` resolves to `range(0, dof)`, i.e. all joints;
(5) the reversed range `"3-2"` resolves to the empty set;
(6) a comma-separated pattern resolves to the concatenation (union) of its
parts' resolutions; and `intRange beg e` contains exactly `{beg..e-1}`. -/
theorem C10_pattern_resolution :
    (expand_as_index 13 (String.toList "1-3") = Except.ok [1, 2, 3])
    ∧ (∀ (dof a : ℕ) (sa : List Char), pyInt sa = Except.ok (a : ℤ) →
        '-' ∉ sa → ',' ∉ sa →
        expand_as_index dof (sa ++ ['-']) = Except.ok (intRange a dof))
    ∧ (∀ (dof b : ℕ) (sb : List Char), pyInt sb = Except.ok (b : ℤ) →
        '-' ∉ sb → ',' ∉ sb →
        expand_as_index dof ('-' :: sb)
          = Except.ok (intRange 0 ((b : ℤ) + 1)))
    ∧ (∀ dof : ℕ, expand_as_index dof ['-'] = Except.ok (intRange 0 dof))
    ∧ (expand_as_index 13 (String.toList "3-2") = Except.ok [])
    ∧ (∀ (dof : ℕ) (p1 p2 : List Char),
        expand_as_index dof (p1 ++ ',' :: p2)
          = match expand_as_index dof p1 with
            | .ok l1 =>
                (match expand_as_index dof p2 with
                 | .ok l2 => .ok (l1 ++ l2)
                 | .error e => .error e)
            | .error e => .error e)
    ∧ (∀ beg e j : ℤ, j ∈ intRange beg e ↔ beg ≤ j ∧ j < e) := by
  refine ⟨rfl, ?_, ?_, ?_, rfl, ?_, mem_intRange⟩
  · intro dof a sa hpi hdm hcm
    have hcm' : ',' ∉ sa ++ ['-'] := by
      intro hm
      rcases List.mem_append.mp hm with h | h
      · exact hcm h
      · simp at h
    have hdm' : '-' ∈ sa ++ ['-'] := List.mem_append_right sa (by simp)
    unfold expand_as_index
    rw [splitOnChar_of_not_mem ',' _ hcm']
    simp only [expandTokens, if_pos hdm']
    have hsplit : splitOnChar '-' (sa ++ ['-']) = [sa, []] := by
      have : sa ++ ['-'] = sa ++ '-' :: [] := rfl
      rw [this, splitOnChar_append, splitOnChar_of_not_mem '-' sa hdm]
      rfl
    unfold expand_as_index_range
    rw [hsplit]
    simp [hpi, pyInt_nil]
  · intro dof b sb hpi hdm hcm
    have hcm' : ',' ∉ ('-' :: sb) := by
      intro hm
      rcases List.mem_cons.mp hm with h | h
      · exact absurd h (by decide)
      · exact hcm h
    have hdm' : '-' ∈ ('-' :: sb) := List.mem_cons_self _ _
    unfold expand_as_index
    rw [splitOnChar_of_not_mem ',' _ hcm']
    simp only [expandTokens, if_pos hdm']
    have hsplit : splitOnChar '-' ('-' :: sb) = [[], sb] := by
      have : ('-' :: sb) = [] ++ '-' :: sb := rfl
      rw [this, splitOnChar_append, splitOnChar_of_not_mem '-' sb hdm]
      rfl
    unfold expand_as_index_range
    rw [hsplit]
    simp [hpi, pyInt_nil]
  · intro dof
    unfold expand_as_index
    have h1 : splitOnChar ',' ['-'] = [['-']] := by
      apply splitOnChar_of_not_mem
      simp
    rw [h1]
    simp only [expandTokens, if_pos (List.mem_cons_self '-' [])]
    have h2 : splitOnChar '-' ['-'] = [[], []] := rfl
    unfold expand_as_index_range
    rw [h2]
    simp [pyInt_nil]
  · intro dof p1 p2
    unfold expand_as_index
    rw [splitOnChar_append, expandTokens_append]

/-- Witness for C10 at `dof = 13`, pattern `"10-"`. -/
theorem C10_witness :
    expand_as_index 13 (String.toList "10" ++ ['-'])
      = Except.ok (intRange 10 13) :=
  (C10_pattern_resolution.2.1) 13 10 (String.toList "10") rfl
    (by decide) (by decide)

/-! ### Claim C6: `AffState.update` frame-length checking -/

theorem unzip_ok_of_dvd (a : List ℚ) (h : 3 ∣ a.length) :
    unzip_array_as_ndarray a 3
      = Except.ok (transposeRows 3 (chunkRows 3 (a.length / 3) a)) := by
  unfold unzip_array_as_ndarray
  rw [if_pos (Nat.div_mul_cancel h).symm]

theorem unzip_error_of_not_dvd (a : List ℚ) (h : ¬ 3 ∣ a.length) :
    unzip_array_as_ndarray a 3 = Except.error PyErr.valueError := by
  unfold unzip_array_as_ndarray
  rw [if_neg]
  intro hEq
  exact h ⟨a.length / 3, by omega⟩

theorem transposeRows_three (rows : List (List ℚ)) :
    transposeRows 3 rows
      = [rows.filterMap (fun row => row.get? 0),
         rows.filterMap (fun row => row.get? 1),
         rows.filterMap (fun row => row.get? 2)] := rfl

/-- One `update` of a freshly constructed filter on a channel array always
succeeds: the zero-prefilled buffer holds Python-float scalars, which
broadcast over any ndarray. -/
theorem FilterNV.default_update (d : List ℚ) :
    FilterNV.default.update (.v d)
      = Except.ok
          ({ n_points := 5,
             x_buffer := List.replicate 4 (NV.s 0) ++ [.v d],
             y_prev := .v (((d.map (fun b => 0 + b)).map (fun a => a - 0))) },
           nvDivScalar
             (.v (((d.map (fun b => 0 + b)).map (fun a => a - 0)))) 5) := rfl

/-- Claim C6 (amended): `AffState.update(raw)` fails with numpy's
`ValueError` exactly when the frame length is not a multiple of 3 (for any
state), and succeeds on a fresh `AffState` for EVERY frame whose length is a
multiple of 3 — the configured `dof` is never consulted, so a frame of
length `3k ≠ 3*dof` is accepted. -/
theorem C6_frame_length_amended (dof : ℕ) (dt : ℚ) (raw : List ℚ) :
    (¬ (3 ∣ raw.length) →
      ∀ st : AffStateS, st.update raw = Except.error PyErr.valueError)
    ∧ (3 ∣ raw.length →
      ∃ st', (AffStateS.fresh dof dt).update raw = Except.ok st') := by
  constructor
  · intro h st
    unfold AffStateS.update
    rw [unzip_error_of_not_dvd raw h]
    rfl
  · intro h
    have hdata : unzip_array_as_ndarray raw 3
        = Except.ok
            [(chunkRows 3 (raw.length / 3) raw).filterMap (fun row => row.get? 0),
             (chunkRows 3 (raw.length / 3) raw).filterMap (fun row => row.get? 1),
             (chunkRows 3 (raw.length / 3) raw).filterMap
               (fun row => row.get? 2)] := by
      rw [unzip_ok_of_dvd raw h, transposeRows_three]
    exact ⟨_, by unfold AffStateS.update; rw [hdata]; rfl⟩

/-- Witness for the amended C6: a frame of length 2 is rejected with
`ValueError` even on a 13-dof system. -/
theorem C6_amended_witness :
    (AffStateS.fresh 13 (1/100)).update [1, 2] = Except.error PyErr.valueError :=
  (C6_frame_length_amended 13 (1/100) [1, 2]).1 (by decide) _

/-- Counterexample to claim C6 as stated: on a 13-dof system (`3*dof = 39`)
a raw frame of length 6 is NOT rejected — `update` succeeds, because the
de-interleave only checks divisibility by 3, never `3*dof`. -/
theorem C6_counterexample :
    ((6 : ℕ) ≠ 3 * 13)
    ∧ ∃ st', (AffStateS.fresh 13 (1/100)).update [1, 2, 3, 4, 5, 6]
        = Except.ok st' := by
  exact ⟨by decide, ⟨_, rfl⟩⟩

/-! ### Claim C3: masking of inactive joints -/

theorem npPut_length (ps : List (ℕ × ℚ)) (u v : List ℚ)
    (h : npPut u ps = Except.ok v) : v.length = u.length := by
  induction ps generalizing u with
  | nil =>
      unfold npPut at h
      cases h
      rfl
  | cons p rest ih =>
      unfold npPut at h
      by_cases hp : p.1 < u.length
      · rw [if_pos hp] at h
        rw [ih _ h, List.length_set]
      · rw [if_neg hp] at h
        cases h

theorem npPut_ok (ps : List (ℕ × ℚ)) (u : List ℚ)
    (h : ∀ p ∈ ps, p.1 < u.length) : ∃ v, npPut u ps = Except.ok v := by
  induction ps generalizing u with
  | nil => exact ⟨u, rfl⟩
  | cons p rest ih =>
      have hp : p.1 < u.length := h p (List.mem_cons_self p rest)
      have hrest : ∀ q ∈ rest, q.1 < (u.set p.1 p.2).length := by
        intro q hq
        rw [List.length_set]
        exact h q (List.mem_cons_of_mem p hq)
      obtain ⟨v, hv⟩ := ih _ hrest
      refine ⟨v, ?_⟩
      unfold npPut
      rw [if_pos hp]
      exact hv

theorem npPut_get_of_notMem (ps : List (ℕ × ℚ)) (u v : List ℚ) (j : ℕ)
    (h : npPut u ps = Except.ok v) (hj : ∀ p ∈ ps, p.1 ≠ j) :
    v[j]? = u[j]? := by
  induction ps generalizing u with
  | nil =>
      unfold npPut at h
      cases h
      rfl
  | cons p rest ih =>
      unfold npPut at h
      by_cases hp : p.1 < u.length
      · rw [if_pos hp] at h
        have hne : p.1 ≠ j := hj p (List.mem_cons_self p rest)
        have hrec := ih (u.set p.1 p.2) h
          (fun q hq => hj q (List.mem_cons_of_mem p hq))
        rw [hrec, List.getElem?_set_ne hne]
      · rw [if_neg hp] at h
        cases h

/-- `np.put` with a repeated index: the LAST pair in the list whose index is
`j` determines the final value at `j`. -/
theorem npPut_get_last (ps : List (ℕ × ℚ)) (u v : List ℚ) (j : ℕ)
    (pw : ℕ × ℚ) (h : npPut u ps = Except.ok v)
    (hw : ps.reverse.find? (fun p => p.1 == j) = some pw) :
    v[j]? = some pw.2 := by
  induction ps generalizing u with
  | nil => simp at hw
  | cons p rest ih =>
      rw [List.reverse_cons, List.find?_append] at hw
      unfold npPut at h
      by_cases hp : p.1 < u.length
      · rw [if_pos hp] at h
        cases hfind : rest.reverse.find? (fun q => q.1 == j) with
        | some q =>
            rw [hfind] at hw
            have hq : q = pw := Option.some.inj hw
            exact ih _ h (by rw [hfind, hq])
        | none =>
            rw [hfind] at hw
            have hw2 : List.find? (fun x => x.1 == j) [p] = some pw := hw
            by_cases hpj : p.1 = j
            · have hbeq : (p.1 == j) = true := beq_iff_eq.mpr hpj
              have hw' : p = pw := by
                simp only [List.find?, hbeq] at hw2
                exact Option.some.inj hw2
              have hnone : ∀ q ∈ rest, q.1 ≠ j := by
                intro q hq
                have hq' := List.find?_eq_none.mp hfind q (List.mem_reverse.mpr hq)
                simpa using hq'
              rw [npPut_get_of_notMem rest _ v j h hnone, ← hw', ← hpj]
              exact List.getElem?_set_eq_of_lt p.2 hp
            · have hbeq : (p.1 == j) = false := by
                simpa using hpj
              simp [List.find?, hbeq] at hw2
      · rw [if_neg hp] at h
        cases h

theorem maskV_eq (tbl : List InactiveRow) (u1 u2 w1 w2 : List ℚ)
    (h1 : npPut u1 (tbl.map fun r => (r.1, r.2.1)) = Except.ok w1)
    (h2 : npPut u2 (tbl.map fun r => (r.1, r.2.2)) = Except.ok w2) :
    maskV tbl u1 u2 = Except.ok (w1, w2) := by
  unfold maskV
  rw [h1, h2]
  rfl

theorem maskV_ok_inv (tbl : List InactiveRow) (u1 u2 m1 m2 : List ℚ)
    (h : maskV tbl u1 u2 = Except.ok (m1, m2)) :
    npPut u1 (tbl.map fun r => (r.1, r.2.1)) = Except.ok m1
    ∧ npPut u2 (tbl.map fun r => (r.1, r.2.2)) = Except.ok m2 := by
  unfold maskV at h
  cases hput1 : npPut u1 (tbl.map fun r => (r.1, r.2.1)) with
  | error e =>
      rw [hput1] at h
      exact Except.noConfusion
        (h : (Except.error e : Except PyErr (List ℚ × List ℚ))
          = Except.ok (m1, m2))
  | ok w1 =>
      rw [hput1] at h
      cases hput2 : npPut u2 (tbl.map fun r => (r.1, r.2.2)) with
      | error e =>
          rw [hput2] at h
          exact Except.noConfusion
            (h : (Except.error e : Except PyErr (List ℚ × List ℚ))
              = Except.ok (m1, m2))
      | ok w2 =>
          rw [hput2] at h
          have h' : (w1, w2) = (m1, m2) :=
            Except.ok.inj
              (h : (Except.ok (w1, w2) : Except PyErr (List ℚ × List ℚ))
                = Except.ok (m1, m2))
          have e1 : w1 = m1 := congrArg Prod.fst h'
          have e2 : w2 = m2 := congrArg Prod.snd h'
          exact ⟨by rw [e1], by rw [e2]⟩

/-- The vectorized PID scheme maps length-`dof` parameter and input vectors
to length-`dof` command vectors. -/
theorem FeedbackPIDV.update_length (fb : FeedbackPIDV) (dof : ℕ)
    (hkP : fb.kP.length = dof) (hkD : fb.kD.length = dof)
    (hkI : fb.kI.length = dof) (hst : fb.stiff.length = dof)
    (hacc : ∀ a, fb.accum_qerr = some a → a.length = dof)
    (t : ℚ) (q pa pb dq qdes dqdes : List ℚ)
    (hq : q.length = dof) (hpa : pa.length = dof) (hpb : pb.length = dof)
    (hdq : dq.length = dof) (hqdes : qdes.length = dof)
    (hdqdes : dqdes.length = dof) :
    (fb.update t q pa pb dq qdes dqdes).2.1.length = dof
    ∧ (fb.update t q pa pb dq qdes dqdes).2.2.length = dof := by
  cases hac : fb.accum_qerr with
  | none =>
      constructor <;>
        simp [FeedbackPIDV.update, FeedbackPIDV.positional_feedback,
          vAdd, vSub, vMul, hac, List.length_zipWith, hkP, hkD, hkI, hst,
          hq, hpa, hpb, hdq, hqdes, hdqdes]
  | some a =>
      have ha : a.length = dof := hacc a hac
      constructor <;>
        simp [FeedbackPIDV.update, FeedbackPIDV.positional_feedback,
          vAdd, vSub, vMul, hac, List.length_zipWith, hkP, hkD, hkI, hst,
          hq, hpa, hpb, hdq, hqdes, hdqdes, ha]

/-- Claim C3: for every joint index `i` recorded in the inactive-joint table
with override pressures `(oa, ob)` (the LAST row for `i` wins, matching
`np.put`), and for ALL state/reference input vectors of length `dof`,
`AffCtrl.update` succeeds and returns at index `i` exactly the
scale-mapping of `(oa, ob)` — a value built from the table entry and the
configured input range alone, hence independent of `q, dq, pa, pb, qdes,
dqdes` (any two runs agree at index `i` because both equal
`scaleVal rng oa` / `scaleVal rng ob`); and at every index `j` not in the
table, `mask` leaves the scheme's computed command unchanged. -/
theorem C3_inactive_joint_masking
    (dof : ℕ) (rng : Option (ℚ × ℚ)) (tbl : List InactiveRow)
    (fb : FeedbackPIDV)
    (hkP : fb.kP.length = dof) (hkD : fb.kD.length = dof)
    (hkI : fb.kI.length = dof) (hst : fb.stiff.length = dof)
    (hacc : ∀ a, fb.accum_qerr = some a → a.length = dof)
    (htbl : ∀ r ∈ tbl, r.1 < dof)
    (i : ℕ) (oa ob : ℚ) (hio : tablePressures tbl i = some (oa, ob)) :
    (∀ (t : ℚ) (q dq pa pb qdes dqdes : List ℚ),
        q.length = dof → dq.length = dof → pa.length = dof →
        pb.length = dof → qdes.length = dof → dqdes.length = dof →
        ∃ c' v1 v2,
          AffCtrlV.update ⟨rng, tbl, fb⟩ t q dq pa pb qdes dqdes
            = Except.ok (c', v1, v2)
          ∧ v1[i]? = some (scaleVal rng oa)
          ∧ v2[i]? = some (scaleVal rng ob))
    ∧ (∀ (u1 u2 m1 m2 : List ℚ), maskV tbl u1 u2 = Except.ok (m1, m2) →
        ∀ j, (∀ r ∈ tbl, r.1 ≠ j) → m1[j]? = u1[j]? ∧ m2[j]? = u2[j]?) := by
  obtain ⟨r0, hr0, hr0p⟩ := Option.map_eq_some'.mp hio
  have hfind1 : ((tbl.map (fun r : InactiveRow => (r.1, r.2.1))).reverse).find?
      (fun p => p.1 == i) = some (r0.1, r0.2.1) := by
    rw [← List.map_reverse, List.find?_map]
    have hc : ((fun p : ℕ × ℚ => p.1 == i) ∘
        (fun r : InactiveRow => (r.1, r.2.1)))
          = fun r : InactiveRow => r.1 == i := rfl
    rw [hc, hr0]
    rfl
  have hfind2 : ((tbl.map (fun r : InactiveRow => (r.1, r.2.2))).reverse).find?
      (fun p => p.1 == i) = some (r0.1, r0.2.2) := by
    rw [← List.map_reverse, List.find?_map]
    have hc : ((fun p : ℕ × ℚ => p.1 == i) ∘
        (fun r : InactiveRow => (r.1, r.2.2)))
          = fun r : InactiveRow => r.1 == i := rfl
    rw [hc, hr0]
    rfl
  have hoa : r0.2.1 = oa := by rw [hr0p]
  have hob : r0.2.2 = ob := by rw [hr0p]
  constructor
  · intro t q dq pa pb qdes dqdes hq hdq hpa hpb hqdes hdqdes
    have hlen := FeedbackPIDV.update_length fb dof hkP hkD hkI hst hacc
      t q dq pa pb qdes dqdes hq hdq hpa hpb hqdes hdqdes
    obtain ⟨m1, hm1⟩ := npPut_ok (tbl.map fun r => (r.1, r.2.1))
      (fb.update t q dq pa pb qdes dqdes).2.1 (by
        intro p hp
        obtain ⟨r, hr, rfl⟩ := List.mem_map.mp hp
        rw [hlen.1]
        exact htbl r hr)
    obtain ⟨m2, hm2⟩ := npPut_ok (tbl.map fun r => (r.1, r.2.2))
      (fb.update t q dq pa pb qdes dqdes).2.2 (by
        intro p hp
        obtain ⟨r, hr, rfl⟩ := List.mem_map.mp hp
        rw [hlen.2]
        exact htbl r hr)
    have hmask := maskV_eq tbl (fb.update t q dq pa pb qdes dqdes).2.1
      (fb.update t q dq pa pb qdes dqdes).2.2 m1 m2 hm1 hm2
    refine ⟨⟨rng, tbl, (fb.update t q dq pa pb qdes dqdes).1⟩,
      scaleV rng m1, scaleV rng m2, ?_, ?_, ?_⟩
    · simp only [AffCtrlV.update]
      rw [hmask]
      rfl
    · have hlast := npPut_get_last (tbl.map fun r => (r.1, r.2.1))
        (fb.update t q dq pa pb qdes dqdes).2.1 m1 i (r0.1, r0.2.1) hm1 hfind1
      unfold scaleV
      rw [List.getElem?_map, hlast, hoa]
      rfl
    · have hlast := npPut_get_last (tbl.map fun r => (r.1, r.2.2))
        (fb.update t q dq pa pb qdes dqdes).2.2 m2 i (r0.1, r0.2.2) hm2 hfind2
      unfold scaleV
      rw [List.getElem?_map, hlast, hob]
      rfl
  · intro u1 u2 m1 m2 hmask j hj
    obtain ⟨hput1, hput2⟩ := maskV_ok_inv tbl u1 u2 m1 m2 hmask
    constructor
    · refine npPut_get_of_notMem _ u1 m1 j hput1 ?_
      intro p hp
      obtain ⟨r, hr, rfl⟩ := List.mem_map.mp hp
      exact hj r hr
    · refine npPut_get_of_notMem _ u2 m2 j hput2 ?_
      intro p hp
      obtain ⟨r, hr, rfl⟩ := List.mem_map.mp hp
      exact hj r hr

/-- Witness for C3: a 2-dof controller with input range `(0, 600)`, joint 0
inactive with overrides `(10, 20)`, and nonzero state inputs. -/
theorem C3_witness :
    ∃ c' v1 v2,
      AffCtrlV.update
          ⟨some (0, 600), [(0, 10, 20)],
           ⟨[1, 1], [1, 1], [1, 1], [100, 100], none⟩⟩
          0 [1, 2] [0, 0] [0, 0] [0, 0] [0, 0] [0, 0]
        = Except.ok (c', v1, v2)
      ∧ v1[0]? = some (scaleVal (some (0, 600)) 10)
      ∧ v2[0]? = some (scaleVal (some (0, 600)) 20) :=
  (C3_inactive_joint_masking 2 (some (0, 600)) [(0, 10, 20)]
      ⟨[1, 1], [1, 1], [1, 1], [100, 100], none⟩ rfl rfl rfl rfl
      (fun a ha => by cases ha)
      (by
        intro r hr
        rcases List.mem_singleton.mp hr with rfl
        decide)
      0 10 20 rfl).1
    0 [1, 2] [0, 0] [0, 0] [0, 0] [0, 0] [0, 0] rfl rfl rfl rfl rfl rfl

end Affctrllib
